import Mathlib

/-!
Shallow embedding of the `lsp-factory` universal-profile deployment service
(`src/lib/services/universal-profile.service.ts`) and proofs about it.

JavaScript strings are modelled as Lean `String`; a JavaScript value that may
be `undefined` is modelled as `Option`.  Fallible ethers utilities are
modelled with `Except`.
-/

set_option maxRecDepth 100000

/-- Lowercase hexadecimal digits of a natural number (no `0x`, `"0"` for 0),
modelling JavaScript number-to-hex conversion as used by ethers. -/
def natToHex (n : Nat) : String :=
  String.mk (Nat.toDigits 16 n)

/-- Left-pad a string with `'0'` characters up to the given length. -/
def padLeftZeros (s : String) (len : Nat) : String :=
  String.mk (List.replicate (len - s.data.length) '0') ++ s

/-- Models `ethers.utils.hexlify([i])` on a one-element byte array: a byte in
the range 0..255 becomes a `0x`-prefixed two-digit lowercase hex string; any
larger value makes ethers throw an INVALID_ARGUMENT error. -/
def hexlifyByte (i : Nat) : Except String String :=
  if i ≤ 255 then .ok ("0x" ++ padLeftZeros (natToHex i) 2)
  else .error "invalid arrayify value"

/-- Models `ethers.utils.hexZeroPad(hex, 16)` on the (at most 16-byte) hex
strings produced in this file: pad the hex digits after `0x` to 32 characters. -/
def hexZeroPad16 (hex : String) : String :=
  "0x" ++ padLeftZeros (hex.drop 2) 32

/-- Models `ethers.utils.defaultAbiCoder.encode(['uint256'], [n])`: the
32-byte big-endian hex encoding of `n`. -/
def abiEncodeUint256 (n : Nat) : String :=
  "0x" ++ padLeftZeros (natToHex n) 64

/-- JavaScript truthiness of a `string | undefined` value: `undefined` and the
empty string are falsy. -/
def jsTruthy : Option String → Bool
  | none => false
  | some s => s ≠ ""

/-- Models JavaScript `Array.prototype.indexOf`: index of the first equal
element, `none` when absent (JS returns -1). -/
def jsIndexOf : List String → String → Option Nat
  | [], _ => none
  | a :: l, x => if a = x then some 0 else (jsIndexOf l x).map (· + 1)

/-- Models a JavaScript `Array.prototype.map` whose callback may throw:
the first thrown error propagates, otherwise the list of results is returned. -/
def mapExcept (f : α → Except ε β) : List α → Except ε (List β)
  | [] => .ok []
  | a :: l => do
    let b ← f a
    let bs ← mapExcept f l
    pure (b :: bs)

/-- Modelled from the spec: the LSP6 permission bits used by the service.
`ERC725.encodePermissions` from the external erc725.js library combines named
permission flags into a 32-byte bitmask; the bit values are fixed distinct
powers of two. -/
inductive Permission
  | CHANGEOWNER
  | CHANGEPERMISSIONS
  | ADDPERMISSIONS
  | SETDATA
  | SUPER_SETDATA
  | CALL
  | STATICCALL
  | DELEGATECALL
  | DEPLOY
  | TRANSFERVALUE
  | SIGN
deriving DecidableEq, Repr

/-- Modelled from the spec: the distinct power-of-two bit value of each
permission flag. -/
def Permission.bit : Permission → Nat
  | .CHANGEOWNER => 1
  | .CHANGEPERMISSIONS => 2
  | .ADDPERMISSIONS => 4
  | .SETDATA => 8
  | .SUPER_SETDATA => 16
  | .CALL => 32
  | .STATICCALL => 64
  | .DELEGATECALL => 128
  | .DEPLOY => 256
  | .TRANSFERVALUE => 512
  | .SIGN => 1024

/-- Models `ERC725.encodePermissions`: OR the requested permission bits
together and encode the bitmask as a 32-byte hex string. -/
def encodePermissions (ps : List Permission) : String :=
  abiEncodeUint256 (ps.foldl (fun acc p => acc ||| p.bit) 0)

/-- Decode a `0x`-prefixed hex string back to a natural number (`none` on a
non-hex digit); used to interpret encoded bitmask and uint256 values. -/
def hexDigitToNat? (c : Char) : Option Nat :=
  if '0' ≤ c ∧ c ≤ '9' then some (c.toNat - 48)
  else if 'a' ≤ c ∧ c ≤ 'f' then some (c.toNat - 87)
  else none

/-- Decode the digits of a `0x`-prefixed hex string. -/
def hexToNat? (s : String) : Option Nat :=
  (s.drop 2).data.foldl
    (fun acc c => do
      let a ← acc
      let d ← hexDigitToNat? c
      pure (a * 16 + d))
    (some 0)

/-- Whether an encoded permission bitmask includes a given permission flag. -/
def permissionIncluded (v : String) (p : Permission) : Bool :=
  match hexToNat? v with
  | some n => n &&& p.bit != 0
  | none => false

/-- Modelled from the spec: `PREFIX_PERMISSIONS` from `config.helper`
(not under `src/`), the fixed 12-byte `AddressPermissions:Permissions:` key
stem of LSP6. -/
def PREFIX_PERMISSIONS : String := "0x4b80742d0000000082ac0000"

/-- Modelled from the spec: `ADDRESS_PERMISSIONS_ARRAY_KEY` from
`config.helper` (not under `src/`), the fixed 32-byte `AddressPermissions[]`
array key of LSP6. -/
def ADDRESS_PERMISSIONS_ARRAY_KEY : String :=
  "0xdf30dba06db6a30e65354d9a64c609861f089545ca58c6b4dbe31a5f338cb0e3"

/-- Modelled from the spec: `LSP3_UP_KEYS.UNIVERSAL_RECEIVER_DELEGATE_KEY`
from `config.helper` (not under `src/`), a fixed 32-byte well-known key. -/
def UNIVERSAL_RECEIVER_DELEGATE_KEY : String :=
  "0x0cfc51aec37c55a4d0b1a65c6255c4bf2fbdf6277f3cc0730c45b828b6db8b47"

/-- Modelled from the spec: `LSP3_UP_KEYS.LSP3_PROFILE` from `config.helper`
(not under `src/`), the fixed 32-byte well-known profile-metadata key. -/
def LSP3_PROFILE_KEY : String :=
  "0x5ef83ad9559033e6e941db7d7c495acdce616347d28e90c7ce47cbfcfcad3bc5"

/-- Modelled from the spec: `DEFAULT_PERMISSIONS` from `config.helper`
(not under `src/`), the default permission set granted to a controller given
as a raw address. -/
def DEFAULT_PERMISSIONS : List Permission :=
  [.SETDATA, .CALL, .TRANSFERVALUE, .SIGN]

/-- Modelled from the spec: `GAS_BUFFER` from `config.helper` (not under
`src/`), the fixed safety buffer added to every fresh gas estimate. -/
def GAS_BUFFER : Nat := 100000

/-- Modelled from the spec: `GAS_PRICE` from `config.helper` (not under
`src/`), the fixed configured gas price used for every submitted
transaction. -/
def GAS_PRICE : Nat := 10000000000

/-- Modelled from the spec: `ERC725_ACCOUNT_INTERFACE` from `config.helper`
(not under `src/`), the ERC165 interface id probed first by
`addressIsUniversalProfile`. -/
def ERC725_ACCOUNT_INTERFACE : String := "0x9a3bfe88"

/-- A controller entry: either a raw address string or a
`ControllerOptions` object `{ address, permissions }` whose `permissions`
field may be absent (`controller.permissions ?? ...` in the source). -/
inductive Controller
  | addr (address : String)
  | options (address : String) (permissions : Option String)
deriving DecidableEq, Repr

/-- The address of a controller entry. -/
def Controller.address : Controller → String
  | .addr a => a
  | .options a _ => a

/-- The permission value a controller entry contributes in
`prepareSetDataParameters`: `ERC725.encodePermissions(DEFAULT_PERMISSIONS)`
for a raw address, the object's raw `permissions` field otherwise (which is
`undefined` when absent, hence the `Option`). -/
def Controller.permissionValue : Controller → Option String
  | .addr _ => some (encodePermissions DEFAULT_PERMISSIONS)
  | .options _ p => p

/-- The result record of `prepareSetDataParameters`.  Values are
`Option String` because a controller object without a `permissions` field
puts `undefined` into `valuesToSet`. -/
structure SetDataParameters where
  keysToSet : List String
  valuesToSet : List (Option String)
  erc725AccountAddress : String
deriving DecidableEq, Repr

/-- The `AddressPermissions[index]` array-element key:
`ADDRESS_PERMISSIONS_ARRAY_KEY.slice(0, 34) +
ethers.utils.hexZeroPad(hexIndex, 16).substring(2)`. -/
def permissionsArrayIndexKey (hexIndex : String) : String :=
  ADDRESS_PERMISSIONS_ARRAY_KEY.take 34 ++ (hexZeroPad16 hexIndex).drop 2

/-- Embedding of `prepareSetDataParameters` from
`src/lib/services/universal-profile.service.ts` (lines 391-470).  The signer
address stands for the awaited `signer.getAddress()`.  The `Except` layer
carries the ethers `hexlify` INVALID_ARGUMENT throw on indices above 255. -/
def prepareSetDataParameters (signerAddress erc725AccountAddress : String)
    (universalReceiverDelegateAddress : String) (controllers : List Controller)
    (encodedLSP3Profile : Option String) : Except String SetDataParameters := do
  let controllerAddresses : List String := controllers.map Controller.address
  let controllerPermissions : List (Option String) :=
    controllers.map Controller.permissionValue
  let addressPermissionsKeys :=
    controllerAddresses.map (fun address => PREFIX_PERMISSIONS ++ address.drop 2)
  let addressPermissionsArrayElements ←
    mapExcept
      (fun index => do
        let hexIndex ← hexlifyByte index
        pure (permissionsArrayIndexKey hexIndex))
      (List.range controllerAddresses.length)
  let hexIndex ← hexlifyByte controllerAddresses.length
  let universalReceiverPermissionIndex := permissionsArrayIndexKey hexIndex
  let keysToSet : List String :=
    [UNIVERSAL_RECEIVER_DELEGATE_KEY,
     PREFIX_PERMISSIONS ++ universalReceiverDelegateAddress.drop 2,
     ADDRESS_PERMISSIONS_ARRAY_KEY] ++
    addressPermissionsArrayElements ++
    addressPermissionsKeys ++
    [universalReceiverPermissionIndex]
  let valuesToSet : List (Option String) :=
    [some universalReceiverDelegateAddress,
     some (encodePermissions [.SUPER_SETDATA]),
     some (abiEncodeUint256 (controllerPermissions.length + 1))] ++
    controllerAddresses.map some ++
    controllerPermissions ++
    [some universalReceiverDelegateAddress]
  let signerKey := PREFIX_PERMISSIONS ++ signerAddress.drop 2
  let (keysToSet, valuesToSet) :=
    if controllerAddresses.contains signerAddress then
      -- JS: valuesToSet[keysToSet.indexOf(signerKey)] = ...; indexOf -1
      -- stores under property "-1" and leaves the array elements unchanged.
      match jsIndexOf keysToSet signerKey with
      | some i =>
        (keysToSet,
         valuesToSet.set i (some (encodePermissions [.CHANGEOWNER, .CHANGEPERMISSIONS])))
      | none => (keysToSet, valuesToSet)
    else
      (keysToSet ++ [signerKey],
       valuesToSet ++ [some (encodePermissions [.CHANGEOWNER, .CHANGEPERMISSIONS])])
  let (keysToSet, valuesToSet) :=
    if jsTruthy encodedLSP3Profile then
      (keysToSet ++ [LSP3_PROFILE_KEY], valuesToSet ++ [encodedLSP3Profile])
    else (keysToSet, valuesToSet)
  pure ⟨keysToSet, valuesToSet, erc725AccountAddress⟩

/-- The signer permission value chosen by `revokeSignerPermissions`
(`src/lib/services/universal-profile.service.ts`, lines 569-583): the
explicit `permissions` of a signer controller object (defaulting when the
field is absent), the default bitmask for a raw signer address, and the
empty bitmask when the signer is not a controller.  The `.addr ""` fallback
of the lookup is unreachable: `indexOf` succeeds whenever `includes` does. -/
def revokeSignerPermissionValue (signerAddress : String)
    (controllers : List Controller) : String :=
  let controllerAddress := controllers.map Controller.address
  if controllerAddress.contains signerAddress then
    let controller :=
      (controllers[controllerAddress.indexOf signerAddress]?).getD (.addr "")
    match controller with
    | .addr _ => encodePermissions DEFAULT_PERMISSIONS
    | .options _ p => p.getD (encodePermissions DEFAULT_PERMISSIONS)
  else
    encodePermissions []

/-- The single key written by `revokeSignerPermissions`:
`PREFIX_PERMISSIONS + signerAddress.substring(2)`. -/
def revokeSignerPermissionKey (signerAddress : String) : String :=
  PREFIX_PERMISSIONS ++ signerAddress.drop 2

/-- The kinds of ownership-handoff transactions submitted by the service. -/
inductive TxKind
  | setData
  | transferOwnership
  | claimOwnership
  | revokeSignerPermissions
deriving DecidableEq, Repr

/-- A gas-relevant event: a fresh `estimateGas` call returning `value`, or a
transaction submission with an explicit gas limit and gas price. -/
inductive GasEvent
  | estimate (k : TxKind) (value : Nat)
  | submit (k : TxKind) (gasLimit gasPrice : Nat)
deriving DecidableEq, Repr

/-- The ordered gas events of
`sendSetDataAndTransferOwnershipTransactions` (lines 472-527): both calls
are estimated fresh, then each transaction is submitted with
`estimate.add(GAS_BUFFER)` as gas limit and the fixed `GAS_PRICE`.
`setDataEstimate` and `transferOwnershipEstimate` are the values returned by
the two `estimateGas` calls. -/
def sendSetDataAndTransferOwnershipGasEvents
    (setDataEstimate transferOwnershipEstimate : Nat) : List GasEvent :=
  [.estimate .setData setDataEstimate,
   .estimate .transferOwnership transferOwnershipEstimate,
   .submit .setData (setDataEstimate + GAS_BUFFER) GAS_PRICE,
   .submit .transferOwnership (transferOwnershipEstimate + GAS_BUFFER) GAS_PRICE]

/-- The ordered gas events of `claimOwnership` (lines 529-557). -/
def claimOwnershipGasEvents (claimOwnershipEstimate : Nat) : List GasEvent :=
  [.estimate .claimOwnership claimOwnershipEstimate,
   .submit .claimOwnership (claimOwnershipEstimate + GAS_BUFFER) GAS_PRICE]

/-- The ordered gas events of `revokeSignerPermissions` (lines 559-614). -/
def revokeSignerPermissionsGasEvents (revokeEstimate : Nat) : List GasEvent :=
  [.estimate .revokeSignerPermissions revokeEstimate,
   .submit .revokeSignerPermissions (revokeEstimate + GAS_BUFFER) GAS_PRICE]

/-- A submission at position `i` of a gas-event trace is freshly estimated:
an earlier event of the same trace is an estimate for the same transaction
kind, the submitted gas limit is that estimate plus `GAS_BUFFER`, and the gas
price is the fixed `GAS_PRICE`. -/
def freshlyEstimated (t : List GasEvent) : Prop :=
  ∀ (i : Nat) k gl gp, t[i]? = some (GasEvent.submit k gl gp) →
    ∃ (j : Nat) (e : Nat), j < i ∧ t[j]? = some (GasEvent.estimate k e) ∧
      gl = e + GAS_BUFFER ∧ gp = GAS_PRICE

/-- How the account contract is created by `deployLSP3Account`
(lines 104-126): a proxy whose creation bytecode is derived from the base
(library) contract address, a full deployment from override bytecode, or the
default full deployment from the bundled factory — the latter two run the
`UniversalProfile` constructor with the signer address as argument. -/
inductive DeploymentMode
  | proxyDeployment (creationByteCode : String)
  | fullDeploymentFromByteCode (byteCode : String) (constructorArg : String)
  | fullDeployment (constructorArg : String)
deriving DecidableEq, Repr

/-- Modelled from the spec: `getProxyByteCode` from `deployment.helper` (not
under `src/`) derives a minimal-proxy creation bytecode forwarding to the
given library address (EIP-1167 layout). -/
def getProxyByteCode (address : String) : String :=
  "0x3d602d80600a3d3981f3363d3d373d3d3d363d73" ++ address.drop 2 ++
    "5af43d82803e903d91602b57fd5bf3"

/-- The account-creation plan chosen by `deployLSP3Account` together with the
initialization step of `accountDeploymentWithBaseContractAddress$`
(lines 75-126): the deployment mode, and the function signature of the
follow-up initialization call when one is issued (`initializeProxy`
uses `'initialize(address)'`; the non-proxy branch wires `EMPTY`). -/
structure AccountDeploymentPlan where
  mode : DeploymentMode
  initializeCall : Option String
deriving DecidableEq, Repr

/-- Embedding of the account-creation branching: `baseContractAddress` and
`byteCode` are JS `string | undefined` parameters tested for truthiness. -/
def accountDeploymentPlan (signerAddress : String)
    (baseContractAddress byteCode : Option String) : AccountDeploymentPlan :=
  if jsTruthy baseContractAddress then
    { mode := .proxyDeployment (getProxyByteCode (baseContractAddress.getD "")),
      initializeCall := some "initialize(address)" }
  else if jsTruthy byteCode then
    { mode := .fullDeploymentFromByteCode (byteCode.getD "") signerAddress,
      initializeCall := none }
  else
    { mode := .fullDeployment signerAddress,
      initializeCall := none }

/-- Embedding of `addressIsUniversalProfile` (lines 653-667): the two
`supportsInterface` reads are modelled by an oracle that either returns a
boolean or throws; the surrounding `try`/`catch` turns any throw into
`false`, so the function itself never throws (its result is always `.ok`). -/
def addressIsUniversalProfile (supportsInterface : String → Except String Bool) :
    Except String Bool :=
  match
    (do
      let isUniversalProfile ← supportsInterface ERC725_ACCOUNT_INTERFACE
      if isUniversalProfile then
        pure isUniversalProfile
      else
        supportsInterface "0x63cb749b" : Except String Bool)
  with
  | .ok b => .ok b
  | .error _ => .ok false

/-- The observable milestones of the ownership-handoff tail of the pipeline
(`setDataAndTransferOwnershipTransactions$`, lines 163-252). -/
inductive HandoffStep
  | setDataAndTransferOwnershipConfirmed
  | claimOwnershipSubmitted
  | claimOwnershipConfirmed
  | revokeSignerPermissionsSubmitted
  | revokeSignerPermissionsConfirmed
deriving DecidableEq, Repr

/-- The dependency wiring of the handoff tail, read off the reactive
combinators of `setDataAndTransferOwnershipTransactions$`: `claimOwnership`
is submitted inside `setDataAndTransferOwnership$.pipe(takeLast(1),
switchMap(...))`; `revokeSignerPermissions` is submitted inside
`claimOwnershipReceipt$.pipe(switchMap(...))`; each receipt comes from
`waitForReceipt` of its own submission. -/
def handoffDependencies : HandoffStep → List HandoffStep
  | .setDataAndTransferOwnershipConfirmed => []
  | .claimOwnershipSubmitted => [.setDataAndTransferOwnershipConfirmed]
  | .claimOwnershipConfirmed => [.claimOwnershipSubmitted]
  | .revokeSignerPermissionsSubmitted => [.claimOwnershipConfirmed]
  | .revokeSignerPermissionsConfirmed => [.revokeSignerPermissionsSubmitted]

/-- A trace of handoff milestones is valid when every milestone occurs only
after all of its dependencies have already occurred. -/
def ValidHandoffTrace (t : List HandoffStep) : Prop :=
  ∀ (i : Nat) (s : HandoffStep), t[i]? = some s →
    ∀ d ∈ handoffDependencies s, d ∈ t.take i

/-- The array-element key produced for an in-range index `i`. -/
def arrayIndexKeyOfNat (i : Nat) : String :=
  permissionsArrayIndexKey ("0x" ++ padLeftZeros (natToHex i) 2)

/-- Pure mirror of `prepareSetDataParameters` on inputs where no ethers
call throws (all array indices fit in one byte); related to the embedding by
`prepareSetDataParameters_eq_ok`. -/
def prepareSetDataParametersPure (signerAddress erc725AccountAddress : String)
    (universalReceiverDelegateAddress : String) (controllers : List Controller)
    (encodedLSP3Profile : Option String) : SetDataParameters :=
  let controllerAddresses : List String := controllers.map Controller.address
  let controllerPermissions : List (Option String) :=
    controllers.map Controller.permissionValue
  let addressPermissionsKeys :=
    controllerAddresses.map (fun address => PREFIX_PERMISSIONS ++ address.drop 2)
  let addressPermissionsArrayElements :=
    (List.range controllerAddresses.length).map arrayIndexKeyOfNat
  let universalReceiverPermissionIndex := arrayIndexKeyOfNat controllerAddresses.length
  let keysToSet : List String :=
    [UNIVERSAL_RECEIVER_DELEGATE_KEY,
     PREFIX_PERMISSIONS ++ universalReceiverDelegateAddress.drop 2,
     ADDRESS_PERMISSIONS_ARRAY_KEY] ++
    addressPermissionsArrayElements ++
    addressPermissionsKeys ++
    [universalReceiverPermissionIndex]
  let valuesToSet : List (Option String) :=
    [some universalReceiverDelegateAddress,
     some (encodePermissions [.SUPER_SETDATA]),
     some (abiEncodeUint256 (controllerPermissions.length + 1))] ++
    controllerAddresses.map some ++
    controllerPermissions ++
    [some universalReceiverDelegateAddress]
  let signerKey := PREFIX_PERMISSIONS ++ signerAddress.drop 2
  let (keysToSet, valuesToSet) :=
    if controllerAddresses.contains signerAddress then
      match jsIndexOf keysToSet signerKey with
      | some i =>
        (keysToSet,
         valuesToSet.set i (some (encodePermissions [.CHANGEOWNER, .CHANGEPERMISSIONS])))
      | none => (keysToSet, valuesToSet)
    else
      (keysToSet ++ [signerKey],
       valuesToSet ++ [some (encodePermissions [.CHANGEOWNER, .CHANGEPERMISSIONS])])
  let (keysToSet, valuesToSet) :=
    if jsTruthy encodedLSP3Profile then
      (keysToSet ++ [LSP3_PROFILE_KEY], valuesToSet ++ [encodedLSP3Profile])
    else (keysToSet, valuesToSet)
  ⟨keysToSet, valuesToSet, erc725AccountAddress⟩

theorem hexlifyByte_ok {i : Nat} (h : i ≤ 255) :
    hexlifyByte i = .ok ("0x" ++ padLeftZeros (natToHex i) 2) := by
  simp [hexlifyByte, h]

theorem mapExcept_arrayIndexKey_ok (l : List Nat) (hl : ∀ x ∈ l, x ≤ 255) :
    mapExcept
      (fun index => do
        let hexIndex ← hexlifyByte index
        pure (permissionsArrayIndexKey hexIndex))
      l = .ok (l.map arrayIndexKeyOfNat) := by
  induction l with
  | nil => rfl
  | cons a l ih =>
    have ha : a ≤ 255 := hl a (by simp)
    have ih' := ih (fun x hx => hl x (by simp [hx]))
    simp only [mapExcept, hexlifyByte_ok ha, ih', List.map_cons, arrayIndexKeyOfNat]
    rfl

theorem mapExcept_arrayIndexKey_error (l : List Nat) (hl : ∃ x ∈ l, 255 < x) :
    ∃ e, mapExcept
      (fun index => do
        let hexIndex ← hexlifyByte index
        pure (permissionsArrayIndexKey hexIndex))
      l = .error e := by
  induction l with
  | nil => simp at hl
  | cons a l ih =>
    by_cases ha : a ≤ 255
    · have : ∃ x ∈ l, 255 < x := by
        obtain ⟨x, hx, hgt⟩ := hl
        rcases List.mem_cons.mp hx with hx | hx
        · exact absurd hgt (by omega)
        · exact ⟨x, hx, hgt⟩
      obtain ⟨e, he⟩ := ih this
      refine ⟨e, ?_⟩
      simp only [mapExcept, hexlifyByte_ok ha, he]
      rfl
    · refine ⟨"invalid arrayify value", ?_⟩
      have : hexlifyByte a = .error "invalid arrayify value" := by
        simp [hexlifyByte, ha]
      simp only [mapExcept, this]
      rfl

theorem prepareSetDataParameters_eq_ok (s e u : String) (cs : List Controller)
    (p : Option String) (h : cs.length ≤ 255) :
    prepareSetDataParameters s e u cs p =
      .ok (prepareSetDataParametersPure s e u cs p) := by
  have hmap := mapExcept_arrayIndexKey_ok (List.range (cs.map Controller.address).length)
    (fun x hx => by
      simp only [List.mem_range, List.length_map] at hx
      omega)
  have hn : (cs.map Controller.address).length ≤ 255 := by
    simp only [List.length_map]; exact h
  simp only [prepareSetDataParameters, prepareSetDataParametersPure, hmap,
    hexlifyByte_ok hn]
  rfl

theorem prepareSetDataParameters_error (s e u : String) (cs : List Controller)
    (p : Option String) (h : 256 ≤ cs.length) :
    ∃ err, prepareSetDataParameters s e u cs p = .error err := by
  by_cases h257 : 257 ≤ cs.length
  · have : ∃ x ∈ List.range (cs.map Controller.address).length, 255 < x := by
      refine ⟨256, ?_, by omega⟩
      simp only [List.mem_range, List.length_map]
      omega
    obtain ⟨err, herr⟩ := mapExcept_arrayIndexKey_error _ this
    refine ⟨err, ?_⟩
    simp only [prepareSetDataParameters, herr]
    rfl
  · have h256 : cs.length = 256 := by omega
    have hmap := mapExcept_arrayIndexKey_ok (List.range (cs.map Controller.address).length)
      (fun x hx => by
        simp only [List.mem_range, List.length_map, h256] at hx
        omega)
    have : hexlifyByte (cs.map Controller.address).length = .error "invalid arrayify value" := by
      simp [hexlifyByte, List.length_map, h256]
    refine ⟨"invalid arrayify value", ?_⟩
    simp only [prepareSetDataParameters, hmap, this]
    rfl

theorem strDataAppend (a b : String) : (a ++ b).data = a.data ++ b.data := rfl

theorem strExt {a b : String} (h : a.data = b.data) : a = b :=
  congrArg String.mk h

theorem ne_append_of_stem {a b : String} (ha : 26 ≤ a.data.length)
    (hb : 26 ≤ b.data.length) (hne : a.data.take 26 ≠ b.data.take 26)
    (s t : String) : a ++ s ≠ b ++ t := by
  intro h
  apply hne
  have h26 := congrArg (fun z : String => z.data.take 26) h
  simp only [strDataAppend, List.take_append_eq_append_take,
    Nat.sub_eq_zero_of_le ha, Nat.sub_eq_zero_of_le hb, List.take_zero,
    List.append_nil] at h26
  exact h26

theorem const_ne_permissionKey {c : String}
    (hne : c.data.take 26 ≠ PREFIX_PERMISSIONS.data.take 26) (x : String) :
    c ≠ PREFIX_PERMISSIONS ++ x := by
  intro h
  apply hne
  have h26 := congrArg (fun z : String => z.data.take 26) h
  simp only [strDataAppend, List.take_append_eq_append_take,
    Nat.sub_eq_zero_of_le (by decide : 26 ≤ PREFIX_PERMISSIONS.data.length),
    List.take_zero, List.append_nil] at h26
  exact h26

theorem urdKey_ne_permissionKey (x : String) :
    UNIVERSAL_RECEIVER_DELEGATE_KEY ≠ PREFIX_PERMISSIONS ++ x :=
  const_ne_permissionKey (by decide) x

theorem arrayKey_ne_permissionKey (x : String) :
    ADDRESS_PERMISSIONS_ARRAY_KEY ≠ PREFIX_PERMISSIONS ++ x :=
  const_ne_permissionKey (by decide) x

theorem profileKey_ne_permissionKey (x : String) :
    LSP3_PROFILE_KEY ≠ PREFIX_PERMISSIONS ++ x :=
  const_ne_permissionKey (by decide) x

theorem arrayIndexKey_ne_permissionKey (hexIndex x : String) :
    permissionsArrayIndexKey hexIndex ≠ PREFIX_PERMISSIONS ++ x := by
  unfold permissionsArrayIndexKey
  exact ne_append_of_stem (by decide) (by decide) (by decide) _ _

theorem arrayIndexKeyOfNat_ne_permissionKey (i : Nat) (x : String) :
    arrayIndexKeyOfNat i ≠ PREFIX_PERMISSIONS ++ x :=
  arrayIndexKey_ne_permissionKey _ x

theorem permissionKey_inj {x y : String}
    (h : PREFIX_PERMISSIONS ++ x = PREFIX_PERMISSIONS ++ y) : x = y := by
  apply strExt
  have hd := congrArg String.data h
  rw [strDataAppend, strDataAppend] at hd
  exact List.append_cancel_left hd

theorem jsIndexOf_some_of_mem {l : List String} {x : String} (h : x ∈ l) :
    ∃ i, jsIndexOf l x = some i := by
  induction l with
  | nil => simp at h
  | cons a l ih =>
    by_cases ha : a = x
    · exact ⟨0, by simp [jsIndexOf, ha]⟩
    · rcases List.mem_cons.mp h with h' | h'
      · exact absurd h'.symm ha
      · obtain ⟨i, hi⟩ := ih h'
        exact ⟨i + 1, by simp [jsIndexOf, ha, hi]⟩

theorem jsIndexOf_lt {l : List String} {x : String} {i : Nat}
    (h : jsIndexOf l x = some i) : i < l.length := by
  induction l generalizing i with
  | nil => simp [jsIndexOf] at h
  | cons a l ih =>
    by_cases ha : a = x
    · simp [jsIndexOf, ha] at h
      simp only [List.length_cons]
      omega
    · simp only [jsIndexOf, ha, if_false, Option.map_eq_some'] at h
      obtain ⟨i', hi', rfl⟩ := h
      have := ih hi'
      simp only [List.length_cons]
      omega

theorem jsIndexOf_append_left {l m : List String} {x : String} {i : Nat}
    (h : jsIndexOf l x = some i) : jsIndexOf (l ++ m) x = some i := by
  induction l generalizing i with
  | nil => simp [jsIndexOf] at h
  | cons a l ih =>
    by_cases ha : a = x
    · simp [jsIndexOf, ha] at h ⊢
      exact h
    · simp only [jsIndexOf, ha, if_false, Option.map_eq_some'] at h
      obtain ⟨i', hi', rfl⟩ := h
      show (if a = x then some 0 else (jsIndexOf (l ++ m) x).map (· + 1)) = some (i' + 1)
      rw [if_neg ha, ih hi']
      rfl

theorem prepareSetDataParametersPure_length (s e u : String)
    (cs : List Controller) (p : Option String) :
    (prepareSetDataParametersPure s e u cs p).keysToSet.length =
      (prepareSetDataParametersPure s e u cs p).valuesToSet.length := by
  simp only [prepareSetDataParametersPure]
  by_cases hc : (cs.map Controller.address).contains s
  · simp only [hc, if_true]
    rcases hidx : jsIndexOf
      ([UNIVERSAL_RECEIVER_DELEGATE_KEY, PREFIX_PERMISSIONS ++ u.drop 2,
        ADDRESS_PERMISSIONS_ARRAY_KEY] ++
       (List.range (cs.map Controller.address).length).map arrayIndexKeyOfNat ++
       (cs.map Controller.address).map (fun address => PREFIX_PERMISSIONS ++ address.drop 2) ++
       [arrayIndexKeyOfNat (cs.map Controller.address).length])
      (PREFIX_PERMISSIONS ++ s.drop 2) with _ | i
    · simp only [hidx]
      by_cases hp : jsTruthy p
      · simp [hp] <;> omega
      · simp [hp] <;> omega
    · simp only [hidx]
      by_cases hp : jsTruthy p
      · simp [hp] <;> omega
      · simp [hp] <;> omega
  · simp only [hc, if_false]
    by_cases hp : jsTruthy p
    · simp [hp] <;> omega
    · simp [hp] <;> omega

/-- Claim C4: for every input (signer, account address, delegate address,
controller list, optional encoded profile), a successfully produced
permission write set satisfies `keysToSet.length = valuesToSet.length`, in
both the signer-absent (append) and signer-present (overwrite) branches and
with or without profile metadata. -/
theorem prepareSetDataParameters_lengths_align (s e u : String)
    (cs : List Controller) (p : Option String) (r : SetDataParameters)
    (h : prepareSetDataParameters s e u cs p = .ok r) :
    r.keysToSet.length = r.valuesToSet.length := by
  by_cases h255 : cs.length ≤ 255
  · rw [prepareSetDataParameters_eq_ok s e u cs p h255] at h
    have hr : prepareSetDataParametersPure s e u cs p = r := by
      injection h
    rw [← hr]
    exact prepareSetDataParametersPure_length s e u cs p
  · obtain ⟨err, herr⟩ := prepareSetDataParameters_error s e u cs p (by omega)
    rw [herr] at h
    cases h

/-- Witness for C4 at a concrete input. -/
theorem prepareSetDataParameters_lengths_align_witness :
    (prepareSetDataParameters "0xaa11" "0xacct" "0xbb22" [.addr "0xcc33"] none).isOk = true ∧
      ∀ r, prepareSetDataParameters "0xaa11" "0xacct" "0xbb22" [.addr "0xcc33"] none = .ok r →
        r.keysToSet.length = r.valuesToSet.length :=
  ⟨by decide, fun r h =>
    prepareSetDataParameters_lengths_align "0xaa11" "0xacct" "0xbb22" [.addr "0xcc33"] none r h⟩

/-- Claim C5: the permission encoder is deterministic: two runs of
`prepareSetDataParameters` on identical inputs (same signer address, account
address, delegate address, controller list and profile bytes) produce
identical results, in particular byte-identical key and value sequences. -/
theorem prepareSetDataParameters_deterministic
    (s₁ s₂ e₁ e₂ u₁ u₂ : String) (cs₁ cs₂ : List Controller) (p₁ p₂ : Option String)
    (hs : s₁ = s₂) (he : e₁ = e₂) (hu : u₁ = u₂) (hcs : cs₁ = cs₂) (hp : p₁ = p₂) :
    prepareSetDataParameters s₁ e₁ u₁ cs₁ p₁ = prepareSetDataParameters s₂ e₂ u₂ cs₂ p₂ := by
  subst hs
  subst he
  subst hu
  subst hcs
  subst hp
  rfl

/-- Witness for C5 at a concrete input. -/
theorem prepareSetDataParameters_deterministic_witness :
    prepareSetDataParameters "0xaa11" "0xacct" "0xbb22" [.addr "0xcc33"] (some "0xff") =
      prepareSetDataParameters "0xaa11" "0xacct" "0xbb22" [.addr "0xcc33"] (some "0xff") :=
  prepareSetDataParameters_deterministic "0xaa11" "0xaa11" "0xacct" "0xacct" "0xbb22" "0xbb22"
    [.addr "0xcc33"] [.addr "0xcc33"] (some "0xff") (some "0xff") rfl rfl rfl rfl rfl

/-- Claim C10: the permission encoder only succeeds for controller lists of
length at most 255: every index key embeds the index as a single byte, so a
controller list of length 256 or more makes the index derivation throw
(ethers `hexlify` on a one-element byte array) before any write set is
produced, while any list of length at most 255 yields a write set. -/
theorem prepareSetDataParameters_index_byte_bound (s e u : String)
    (cs : List Controller) (p : Option String) :
    (256 ≤ cs.length → ∃ err, prepareSetDataParameters s e u cs p = .error err) ∧
      (cs.length ≤ 255 → ∃ r, prepareSetDataParameters s e u cs p = .ok r) := by
  constructor
  · intro h
    exact prepareSetDataParameters_error s e u cs p h
  · intro h
    exact ⟨prepareSetDataParametersPure s e u cs p,
      prepareSetDataParameters_eq_ok s e u cs p h⟩

/-- Witness for C10: a 256-entry controller list makes the encoder throw and
a 255-entry one does not. -/
theorem prepareSetDataParameters_index_byte_bound_witness :
    (∃ err, prepareSetDataParameters "0xaa11" "0xacct" "0xbb22"
        (List.replicate 256 (.addr "0xcc33")) none = .error err) ∧
      (∃ r, prepareSetDataParameters "0xaa11" "0xacct" "0xbb22"
        (List.replicate 255 (.addr "0xcc33")) none = .ok r) :=
  ⟨(prepareSetDataParameters_index_byte_bound "0xaa11" "0xacct" "0xbb22"
      (List.replicate 256 (.addr "0xcc33")) none).1 (by simp),
   (prepareSetDataParameters_index_byte_bound "0xaa11" "0xacct" "0xbb22"
      (List.replicate 255 (.addr "0xcc33")) none).2 (by simp)⟩

/-- Claim C9: the existing-identity probe returns `false` on any read failure
instead of propagating an error: the probe itself never throws (its result is
always `.ok`), if the first `supportsInterface` read throws the result is
`false`, and if the first read returns `false` and the second read throws the
result is also `false`. -/
theorem addressIsUniversalProfile_degrades_to_false
    (si : String → Except String Bool) :
    (∃ b, addressIsUniversalProfile si = .ok b) ∧
      (∀ err, si ERC725_ACCOUNT_INTERFACE = .error err →
        addressIsUniversalProfile si = .ok false) ∧
      (∀ err, si ERC725_ACCOUNT_INTERFACE = .ok false →
        si "0x63cb749b" = .error err →
        addressIsUniversalProfile si = .ok false) := by
  refine ⟨?_, ?_, ?_⟩
  · rcases h1 : si ERC725_ACCOUNT_INTERFACE with err | b
    · refine ⟨false, ?_⟩
      unfold addressIsUniversalProfile
      rw [h1]
      rfl
    · rcases b with _ | _
      · rcases h2 : si "0x63cb749b" with err | b2
        · refine ⟨false, ?_⟩
          unfold addressIsUniversalProfile
          rw [h1]
          show (match si "0x63cb749b" with
            | .ok b => .ok b
            | .error _ => .ok false : Except String Bool) = .ok false
          rw [h2]
        · refine ⟨b2, ?_⟩
          unfold addressIsUniversalProfile
          rw [h1]
          show (match si "0x63cb749b" with
            | .ok b => .ok b
            | .error _ => .ok false : Except String Bool) = .ok b2
          rw [h2]
      · refine ⟨true, ?_⟩
        unfold addressIsUniversalProfile
        rw [h1]
        rfl
  · intro err h1
    unfold addressIsUniversalProfile
    rw [h1]
    rfl
  · intro err h1 h2
    unfold addressIsUniversalProfile
    rw [h1]
    show (match si "0x63cb749b" with
      | .ok b => .ok b
      | .error _ => .ok false : Except String Bool) = .ok false
    rw [h2]

/-- Witness for C9 with a concrete always-throwing oracle. -/
theorem addressIsUniversalProfile_degrades_to_false_witness :
    addressIsUniversalProfile (fun _ => .error "network down") = .ok false :=
  (addressIsUniversalProfile_degrades_to_false
    (fun _ => .error "network down")).2.1 "network down" rfl

/-- Claim C8: account creation has exactly two modes: with a (truthy)
base-contract address the plan is a proxy deployment whose creation bytecode
is derived from that library address followed by an `initialize(address)`
call; without one the contract is fully deployed through its constructor
(from override bytecode when supplied, from the bundled factory otherwise)
and no initialization call is issued. -/
theorem accountDeploymentPlan_two_modes (s : String)
    (base byteCode : Option String) :
    (∀ b, base = some b → b ≠ "" →
      accountDeploymentPlan s base byteCode =
        ⟨.proxyDeployment (getProxyByteCode b), some "initialize(address)"⟩) ∧
      (base = none ∨ base = some "" →
        (accountDeploymentPlan s base byteCode).initializeCall = none ∧
        ((∃ code, byteCode = some code ∧ code ≠ "" ∧
            (accountDeploymentPlan s base byteCode).mode =
              .fullDeploymentFromByteCode code s) ∨
          ((byteCode = none ∨ byteCode = some "") ∧
            (accountDeploymentPlan s base byteCode).mode = .fullDeployment s))) := by
  constructor
  · intro b hb hne
    subst hb
    have htruthy : jsTruthy (some b) = true := by
      simp [jsTruthy, hne]
    simp [accountDeploymentPlan, htruthy]
  · intro hbase
    have hfalsy : jsTruthy base = false := by
      rcases hbase with h | h <;> subst h <;> simp [jsTruthy]
    rcases hbc : byteCode with _ | code
    · have hbcf : jsTruthy (none : Option String) = false := by simp [jsTruthy]
      refine ⟨by simp [accountDeploymentPlan, hfalsy, hbcf], .inr ⟨.inl rfl, ?_⟩⟩
      simp [accountDeploymentPlan, hfalsy, hbcf]
    · by_cases hcode : code = ""
      · subst hcode
        have hbcf : jsTruthy (some "") = false := by simp [jsTruthy]
        refine ⟨by simp [accountDeploymentPlan, hfalsy, hbcf], .inr ⟨.inr rfl, ?_⟩⟩
        simp [accountDeploymentPlan, hfalsy, hbcf]
      · have hbct : jsTruthy (some code) = true := by simp [jsTruthy, hcode]
        refine ⟨by simp [accountDeploymentPlan, hfalsy, hbct], ?_⟩
        exact .inl ⟨code, rfl, hcode, by simp [accountDeploymentPlan, hfalsy, hbct]⟩

/-- Witness for C8 at concrete inputs for both modes. -/
theorem accountDeploymentPlan_two_modes_witness :
    accountDeploymentPlan "0xaa11" (some "0xbase") none =
        ⟨.proxyDeployment (getProxyByteCode "0xbase"), some "initialize(address)"⟩ ∧
      (accountDeploymentPlan "0xaa11" none none).initializeCall = none :=
  ⟨(accountDeploymentPlan_two_modes "0xaa11" (some "0xbase") none).1 "0xbase" rfl
      (by decide),
   ((accountDeploymentPlan_two_modes "0xaa11" none none).2 (.inl rfl)).1⟩

/-- Claim C7: every ownership-handoff transaction (set-data,
transfer-ownership, claim-ownership, revoke-signer-permissions) is submitted
with a gas limit equal to a fresh estimate of that same transaction obtained
earlier in the same call plus the fixed `GAS_BUFFER`, and with the fixed
configured `GAS_PRICE`, for all estimate values. -/
theorem handoffTransactions_freshly_estimated
    (setDataEstimate transferOwnershipEstimate claimEstimate revokeEstimate : Nat) :
    freshlyEstimated
        (sendSetDataAndTransferOwnershipGasEvents setDataEstimate transferOwnershipEstimate) ∧
      freshlyEstimated (claimOwnershipGasEvents claimEstimate) ∧
      freshlyEstimated (revokeSignerPermissionsGasEvents revokeEstimate) := by
  refine ⟨?_, ?_, ?_⟩
  · intro i k gl gp h
    match i with
    | 0 => cases h
    | 1 => cases h
    | 2 =>
      obtain ⟨rfl, rfl, rfl⟩ :
          TxKind.setData = k ∧ setDataEstimate + GAS_BUFFER = gl ∧ GAS_PRICE = gp := by
        simpa [sendSetDataAndTransferOwnershipGasEvents] using h
      exact ⟨0, setDataEstimate, by omega, rfl, rfl, rfl⟩
    | 3 =>
      obtain ⟨rfl, rfl, rfl⟩ :
          TxKind.transferOwnership = k ∧ transferOwnershipEstimate + GAS_BUFFER = gl ∧
            GAS_PRICE = gp := by
        simpa [sendSetDataAndTransferOwnershipGasEvents] using h
      exact ⟨1, transferOwnershipEstimate, by omega, rfl, rfl, rfl⟩
    | n + 4 => cases h
  · intro i k gl gp h
    match i with
    | 0 => cases h
    | 1 =>
      obtain ⟨rfl, rfl, rfl⟩ :
          TxKind.claimOwnership = k ∧ claimEstimate + GAS_BUFFER = gl ∧ GAS_PRICE = gp := by
        simpa [claimOwnershipGasEvents] using h
      exact ⟨0, claimEstimate, by omega, rfl, rfl, rfl⟩
    | n + 2 => cases h
  · intro i k gl gp h
    match i with
    | 0 => cases h
    | 1 =>
      obtain ⟨rfl, rfl, rfl⟩ :
          TxKind.revokeSignerPermissions = k ∧ revokeEstimate + GAS_BUFFER = gl ∧
            GAS_PRICE = gp := by
        simpa [revokeSignerPermissionsGasEvents] using h
      exact ⟨0, revokeEstimate, by omega, rfl, rfl, rfl⟩
    | n + 2 => cases h

/-- Witness for C7 at concrete estimate values. -/
theorem handoffTransactions_freshly_estimated_witness :
    freshlyEstimated (sendSetDataAndTransferOwnershipGasEvents 21000 42000) ∧
      freshlyEstimated (claimOwnershipGasEvents 52000) ∧
      freshlyEstimated (revokeSignerPermissionsGasEvents 63000) :=
  handoffTransactions_freshly_estimated 21000 42000 52000 63000

/-- Claim C1: in every valid execution trace of the ownership-handoff
pipeline (valid: each milestone occurs only after all of its wired
dependencies), the revoke-signer-permissions submission occurs strictly
after a confirmed claim-ownership receipt; revocation is never started
before claim-ownership confirmation. -/
theorem revocation_after_claim_confirmation (t : List HandoffStep)
    (hv : ValidHandoffTrace t) (i : Nat)
    (hrev : t[i]? = some HandoffStep.revokeSignerPermissionsSubmitted) :
    ∃ j : Nat, j < i ∧ t[j]? = some HandoffStep.claimOwnershipConfirmed := by
  have hdep : HandoffStep.claimOwnershipConfirmed ∈ t.take i :=
    hv i HandoffStep.revokeSignerPermissionsSubmitted hrev
      HandoffStep.claimOwnershipConfirmed (by simp [handoffDependencies])
  obtain ⟨j, hj, e⟩ := List.getElem_of_mem hdep
  have hj' : j < t.length := by
    simp only [List.length_take] at hj
    omega
  refine ⟨j, by simp only [List.length_take] at hj; omega, ?_⟩
  rw [List.getElem?_eq_getElem hj']
  rw [← e]
  congr 1
  exact (List.getElem_take t).symm

/-- Witness for C1 on the concrete in-order trace of one pipeline run. -/
theorem revocation_after_claim_confirmation_witness :
    ∃ j : Nat, j < 3 ∧
      ([HandoffStep.setDataAndTransferOwnershipConfirmed,
        HandoffStep.claimOwnershipSubmitted,
        HandoffStep.claimOwnershipConfirmed,
        HandoffStep.revokeSignerPermissionsSubmitted,
        HandoffStep.revokeSignerPermissionsConfirmed][j]? =
        some HandoffStep.claimOwnershipConfirmed) :=
  revocation_after_claim_confirmation
    [HandoffStep.setDataAndTransferOwnershipConfirmed,
     HandoffStep.claimOwnershipSubmitted,
     HandoffStep.claimOwnershipConfirmed,
     HandoffStep.revokeSignerPermissionsSubmitted,
     HandoffStep.revokeSignerPermissionsConfirmed]
    (by
      intro i s hs
      match i, hs with
      | 0, h => injection h with h2; subst h2; decide
      | 1, h => injection h with h2; subst h2; decide
      | 2, h => injection h with h2; subst h2; decide
      | 3, h => injection h with h2; subst h2; decide
      | 4, h => injection h with h2; subst h2; decide
      | n + 5, h => cases h)
    3 (by decide)

/-- Claim C6: the permission value written by the revocation step is the
signer's explicitly requested permissions when the signer appears (first) in
the controller list as an object with a `permissions` field, the default
bitmask when it appears as a raw address or as an object without
`permissions`, and the empty bitmask when the signer is not a controller at
all. -/
theorem revokeSignerPermissionValue_cases (s : String) (cs : List Controller) :
    (s ∉ cs.map Controller.address →
      revokeSignerPermissionValue s cs = encodePermissions []) ∧
      (∀ c, s ∈ cs.map Controller.address →
        cs[(cs.map Controller.address).indexOf s]? = some c →
        ((∀ a, c = .addr a →
            revokeSignerPermissionValue s cs = encodePermissions DEFAULT_PERMISSIONS) ∧
          (∀ a, c = .options a none →
            revokeSignerPermissionValue s cs = encodePermissions DEFAULT_PERMISSIONS) ∧
          (∀ a q, c = .options a (some q) →
            revokeSignerPermissionValue s cs = q))) := by
  constructor
  · intro hnot
    have hc : (cs.map Controller.address).contains s = false := by
      simpa using hnot
    simp only [revokeSignerPermissionValue, hc, Bool.false_eq_true, if_false]
  · intro c hmem hidx
    have hc : (cs.map Controller.address).contains s = true := by
      simpa using hmem
    refine ⟨?_, ?_, ?_⟩
    · intro a hca
      subst hca
      simp only [revokeSignerPermissionValue, hc, if_true, hidx, Option.getD_some]
    · intro a hca
      subst hca
      simp only [revokeSignerPermissionValue, hc, if_true, hidx, Option.getD_some,
        Option.getD_none]
    · intro a q hca
      subst hca
      simp only [revokeSignerPermissionValue, hc, if_true, hidx, Option.getD_some]

/-- Witness for C6 covering all three cases at concrete inputs. -/
theorem revokeSignerPermissionValue_cases_witness :
    revokeSignerPermissionValue "0xaa11" [] = encodePermissions [] ∧
      revokeSignerPermissionValue "0xaa11" [.addr "0xaa11"] =
        encodePermissions DEFAULT_PERMISSIONS ∧
      revokeSignerPermissionValue "0xaa11" [.options "0xaa11" (some "0x07")] = "0x07" :=
  ⟨(revokeSignerPermissionValue_cases "0xaa11" []).1 (by decide),
   (((revokeSignerPermissionValue_cases "0xaa11" [.addr "0xaa11"]).2
      (.addr "0xaa11") (by decide) (by decide)).1 "0xaa11" rfl),
   (((revokeSignerPermissionValue_cases "0xaa11" [.options "0xaa11" (some "0x07")]).2
      (.options "0xaa11" (some "0x07")) (by decide) (by decide)).2.2 "0xaa11" "0x07" rfl)⟩

theorem count_arrayIndexKeys_zero (s : String) (l : List Nat) :
    (l.map arrayIndexKeyOfNat).count (PREFIX_PERMISSIONS ++ s) = 0 := by
  rw [List.count_eq_zero]
  intro hmem
  obtain ⟨j, _, hj⟩ := List.mem_map.mp hmem
  exact arrayIndexKeyOfNat_ne_permissionKey j s hj

theorem count_mapKeys_eq_countP (s : String) (addrs : List String) :
    (addrs.map (fun a => PREFIX_PERMISSIONS ++ a.drop 2)).count
        (PREFIX_PERMISSIONS ++ s.drop 2) =
      addrs.countP (fun a => a.drop 2 == s.drop 2) := by
  rw [List.count_eq_countP, List.countP_map]
  apply List.countP_congr
  intro a _
  constructor
  · intro h
    simp only [Function.comp_apply, beq_iff_eq] at h
    simp only [beq_iff_eq]
    exact permissionKey_inj h
  · intro h
    simp only [beq_iff_eq] at h
    simp only [Function.comp_apply, beq_iff_eq, h]

theorem count_fixedKeys_zero (s u : String) (hurd : u.drop 2 ≠ s.drop 2) :
    ([UNIVERSAL_RECEIVER_DELEGATE_KEY,
      PREFIX_PERMISSIONS ++ u.drop 2,
      ADDRESS_PERMISSIONS_ARRAY_KEY].count (PREFIX_PERMISSIONS ++ s.drop 2)) = 0 := by
  rw [List.count_eq_zero]
  intro hmem
  rcases List.mem_cons.mp hmem with h | hmem
  · exact urdKey_ne_permissionKey (s.drop 2) h.symm
  rcases List.mem_cons.mp hmem with h | hmem
  · exact hurd (permissionKey_inj h.symm)
  rcases List.mem_cons.mp hmem with h | hmem
  · exact arrayKey_ne_permissionKey (s.drop 2) h.symm
  · simp at hmem

/-- Claim C2 (amended): if the signer address is already a controller
(with a single controller entry matching its address suffix, and a delegate
address distinct from it), no duplicate key is produced for the signer — its
permission key occurs exactly once in the write set — and the signer's
permission value is overwritten to exactly the fixed change-owner plus
change-permissions bitmask (the originally requested rights are not kept in
this write; the revocation step later restores them). -/
theorem prepareSetDataParameters_signer_present_overwrite (s e u : String)
    (cs : List Controller) (p : Option String) (h255 : cs.length ≤ 255)
    (hmem : s ∈ cs.map Controller.address)
    (hcount : (cs.map Controller.address).countP (fun a => a.drop 2 == s.drop 2) = 1)
    (hurd : u.drop 2 ≠ s.drop 2) :
    ∃ r, prepareSetDataParameters s e u cs p = .ok r ∧
      r.keysToSet.count (PREFIX_PERMISSIONS ++ s.drop 2) = 1 ∧
      ∃ i, jsIndexOf r.keysToSet (PREFIX_PERMISSIONS ++ s.drop 2) = some i ∧
        r.valuesToSet[i]? =
          some (some (encodePermissions [.CHANGEOWNER, .CHANGEPERMISSIONS])) := by
  refine ⟨prepareSetDataParametersPure s e u cs p,
    prepareSetDataParameters_eq_ok s e u cs p h255, ?_⟩
  have hcontains : (cs.map Controller.address).contains s = true := by
    simpa using hmem
  have hmemkey : PREFIX_PERMISSIONS ++ s.drop 2 ∈
      ([UNIVERSAL_RECEIVER_DELEGATE_KEY,
        PREFIX_PERMISSIONS ++ u.drop 2,
        ADDRESS_PERMISSIONS_ARRAY_KEY] ++
       (List.range (cs.map Controller.address).length).map arrayIndexKeyOfNat ++
       (cs.map Controller.address).map
         (fun address => PREFIX_PERMISSIONS ++ address.drop 2) ++
       [arrayIndexKeyOfNat (cs.map Controller.address).length]) := by
    refine List.mem_append.mpr (.inl (List.mem_append.mpr (.inr ?_)))
    exact List.mem_map_of_mem (fun a => PREFIX_PERMISSIONS ++ a.drop 2) hmem
  obtain ⟨i, hidx⟩ := jsIndexOf_some_of_mem hmemkey
  have hcountbase : ([UNIVERSAL_RECEIVER_DELEGATE_KEY,
        PREFIX_PERMISSIONS ++ u.drop 2,
        ADDRESS_PERMISSIONS_ARRAY_KEY] ++
       (List.range (cs.map Controller.address).length).map arrayIndexKeyOfNat ++
       (cs.map Controller.address).map
         (fun address => PREFIX_PERMISSIONS ++ address.drop 2) ++
       [arrayIndexKeyOfNat (cs.map Controller.address).length]).count
        (PREFIX_PERMISSIONS ++ s.drop 2) = 1 := by
    rw [List.count_append, List.count_append, List.count_append]
    rw [count_fixedKeys_zero s u hurd, count_arrayIndexKeys_zero,
      count_mapKeys_eq_countP, hcount]
    have hlast : ([arrayIndexKeyOfNat (cs.map Controller.address).length].count
        (PREFIX_PERMISSIONS ++ s.drop 2)) = 0 := by
      rw [List.count_eq_zero]
      intro hm
      rcases List.mem_cons.mp hm with hm | hm
      · exact arrayIndexKeyOfNat_ne_permissionKey _ _ hm.symm
      · simp at hm
    rw [hlast]
  have hlen : i < ([some u,
       some (encodePermissions [.SUPER_SETDATA]),
       some (abiEncodeUint256 ((cs.map Controller.permissionValue).length + 1))] ++
      (cs.map Controller.address).map some ++
      cs.map Controller.permissionValue ++
      [some u]).length := by
    have h1 := jsIndexOf_lt hidx
    simp only [List.length_append, List.length_map, List.length_cons,
      List.length_nil, List.length_range] at h1 ⊢
    omega
  have hlenset : i < (([some u,
       some (encodePermissions [.SUPER_SETDATA]),
       some (abiEncodeUint256 ((cs.map Controller.permissionValue).length + 1))] ++
      (cs.map Controller.address).map some ++
      cs.map Controller.permissionValue ++
      [some u]).set i
        (some (encodePermissions [.CHANGEOWNER, .CHANGEPERMISSIONS]))).length := by
    rw [List.length_set]
    exact hlen
  simp only [prepareSetDataParametersPure, hcontains, if_true, hidx]
  by_cases hp : jsTruthy p
  · simp only [hp, if_true]
    refine ⟨?_, i, jsIndexOf_append_left hidx, ?_⟩
    · rw [List.count_append, hcountbase]
      have : ([LSP3_PROFILE_KEY].count (PREFIX_PERMISSIONS ++ s.drop 2)) = 0 := by
        rw [List.count_eq_zero]
        intro hm
        rcases List.mem_cons.mp hm with hm | hm
        · exact profileKey_ne_permissionKey _ hm.symm
        · simp at hm
      rw [this]
    · rw [List.getElem?_append_left hlenset]
      rw [List.getElem?_set_self hlen]
  · simp only [hp, Bool.false_eq_true, if_false]
    refine ⟨hcountbase, i, hidx, ?_⟩
    rw [List.getElem?_set_self hlen]

/-- Witness for C2 at a concrete input with the signer as sole controller. -/
theorem prepareSetDataParameters_signer_present_overwrite_witness :
    ∃ r, prepareSetDataParameters "0xaa11" "0xacct" "0xbb22"
        [.options "0xaa11" (some "0x07")] none = .ok r ∧
      r.keysToSet.count (PREFIX_PERMISSIONS ++ "0xaa11".drop 2) = 1 ∧
      ∃ i, jsIndexOf r.keysToSet (PREFIX_PERMISSIONS ++ "0xaa11".drop 2) = some i ∧
        r.valuesToSet[i]? =
          some (some (encodePermissions [.CHANGEOWNER, .CHANGEPERMISSIONS])) :=
  prepareSetDataParameters_signer_present_overwrite "0xaa11" "0xacct" "0xbb22"
    [.options "0xaa11" (some "0x07")] none (by decide) (by decide) (by decide) (by decide)

/-- Counterexample for C2 as frozen: with the signer as an explicit
controller that requested the CALL right, the encoder overwrites the
signer's value with the bare change-owner plus change-permissions bitmask;
the written value does not include the originally requested CALL right, so
the value is not "the change-owner and change-permissions rights in addition
to the signer's originally requested rights". -/
theorem prepareSetDataParameters_signer_overwrite_counterexample :
    ∃ r, prepareSetDataParameters "0xaa11" "0xacct" "0xbb22"
        [.options "0xaa11" (some (encodePermissions [.CALL]))] none = .ok r ∧
      jsIndexOf r.keysToSet (PREFIX_PERMISSIONS ++ "aa11") = some 4 ∧
      r.valuesToSet[4]? =
        some (some (encodePermissions [.CHANGEOWNER, .CHANGEPERMISSIONS])) ∧
      permissionIncluded (encodePermissions [.CHANGEOWNER, .CHANGEPERMISSIONS]) .CALL
        = false ∧
      permissionIncluded (encodePermissions [.CALL]) .CALL = true := by
  refine ⟨prepareSetDataParametersPure "0xaa11" "0xacct" "0xbb22"
      [.options "0xaa11" (some (encodePermissions [.CALL]))] none,
    prepareSetDataParameters_eq_ok "0xaa11" "0xacct" "0xbb22"
      [.options "0xaa11" (some (encodePermissions [.CALL]))] none (by decide),
    ?_, ?_, ?_, ?_⟩ <;> decide

/-- Claim C3 (amended): for a controller list of length N (at most 255) not
containing the signer and no profile metadata, the encoder produces exactly
2N+5 aligned key/value pairs: beyond the two fixed keys (the delegate key and
the array-length key) there are 2N+3 pairs — N address-index entries plus one
delegate-index entry, N mapping entries plus one delegate mapping entry, plus
one synthetic signer entry — and the encoded array-length value is N+1. -/
theorem prepareSetDataParameters_signer_absent_shape (s e u : String)
    (cs : List Controller) (h255 : cs.length ≤ 255)
    (habs : (cs.map Controller.address).contains s = false) :
    ∃ r, prepareSetDataParameters s e u cs none = .ok r ∧
      r.keysToSet =
        [UNIVERSAL_RECEIVER_DELEGATE_KEY,
         PREFIX_PERMISSIONS ++ u.drop 2,
         ADDRESS_PERMISSIONS_ARRAY_KEY] ++
        (List.range cs.length).map arrayIndexKeyOfNat ++
        (cs.map Controller.address).map (fun a => PREFIX_PERMISSIONS ++ a.drop 2) ++
        [arrayIndexKeyOfNat cs.length] ++
        [PREFIX_PERMISSIONS ++ s.drop 2] ∧
      r.keysToSet.length = 2 * cs.length + 5 ∧
      r.valuesToSet.length = 2 * cs.length + 5 ∧
      r.valuesToSet[2]? = some (some (abiEncodeUint256 (cs.length + 1))) := by
  refine ⟨prepareSetDataParametersPure s e u cs none,
    prepareSetDataParameters_eq_ok s e u cs none h255, ?_, ?_, ?_, ?_⟩
  · simp only [prepareSetDataParametersPure, habs, Bool.false_eq_true, if_false,
      List.length_map]
    rfl
  · simp only [prepareSetDataParametersPure, habs, jsTruthy, Bool.false_eq_true,
      if_false]
    simp only [List.length_append, List.length_map, List.length_range,
      List.length_cons, List.length_nil]
    omega
  · simp only [prepareSetDataParametersPure, habs, jsTruthy, Bool.false_eq_true,
      if_false]
    simp only [List.length_append, List.length_map, List.length_range,
      List.length_cons, List.length_nil]
    omega
  · simp only [prepareSetDataParametersPure, habs, jsTruthy, Bool.false_eq_true,
      if_false, List.length_map]
    simp only [List.cons_append, List.nil_append, List.getElem?_cons_succ,
      List.getElem?_cons_zero]

/-- Witness for C3 at a concrete two-controller input. -/
theorem prepareSetDataParameters_signer_absent_shape_witness :
    ∃ r, prepareSetDataParameters "0xaa11" "0xacct" "0xbb22"
        [.addr "0xcc33", .options "0xdd44" (some "0x0f")] none = .ok r ∧
      r.keysToSet =
        [UNIVERSAL_RECEIVER_DELEGATE_KEY,
         PREFIX_PERMISSIONS ++ "0xbb22".drop 2,
         ADDRESS_PERMISSIONS_ARRAY_KEY] ++
        (List.range 2).map arrayIndexKeyOfNat ++
        (["0xcc33", "0xdd44"]).map (fun a => PREFIX_PERMISSIONS ++ a.drop 2) ++
        [arrayIndexKeyOfNat 2] ++
        [PREFIX_PERMISSIONS ++ "0xaa11".drop 2] ∧
      r.keysToSet.length = 2 * 2 + 5 ∧
      r.valuesToSet.length = 2 * 2 + 5 ∧
      r.valuesToSet[2]? = some (some (abiEncodeUint256 (2 + 1))) :=
  prepareSetDataParameters_signer_absent_shape "0xaa11" "0xacct" "0xbb22"
    [.addr "0xcc33", .options "0xdd44" (some "0x0f")] (by decide) (by decide)

/-- Counterexample for C3 as frozen: at a one-controller list (N = 1, signer
absent, no profile) the encoder emits 7 aligned pairs in total, so the number
of pairs beyond the fixed delegate keys is 5 (beyond the two fixed keys) or 4
(even counting the delegate mapping entry as fixed), never N+2 = 3: the
claimed total of fixed keys plus N+2 pairs cannot reach 7. -/
theorem prepareSetDataParameters_pair_count_counterexample :
    ∃ r, prepareSetDataParameters "0xaa11" "0xacct" "0xbb22"
        [.addr "0xcc33"] none = .ok r ∧
      r.keysToSet.length = 7 ∧
      r.valuesToSet.length = 7 ∧
      (7 : Nat) ≠ 2 + (1 + 2) ∧
      (7 : Nat) ≠ 3 + (1 + 2) := by
  refine ⟨prepareSetDataParametersPure "0xaa11" "0xacct" "0xbb22"
      [.addr "0xcc33"] none,
    prepareSetDataParameters_eq_ok "0xaa11" "0xacct" "0xbb22"
      [.addr "0xcc33"] none (by decide), ?_, ?_, ?_, ?_⟩ <;> decide
